import Mathlib

/-!
Shallow embedding of the parsing core of the data-parser-app repository
(src/data_parser_core): the delimited-text (CSV) strategy, the fixed-width
strategy, the byte-to-text decode adapter, and the resource-to-strategy
resolution loop of the execution engine, together with theorems about them.

Machine integers are modelled as Nat/Int with explicit reduction modulo
2^32 where the source relies on 32-bit wrap-around (SHA-256); fallible
Python code is modelled with Except/Option; Python dicts that the code
builds row by row are modelled as insertion-ordered association lists.
-/

namespace DataParser

/-! ### Models of Python primitives used by the source -/

/-- Characters stripped by Python str.strip() with no arguments (ASCII
whitespace subset; the full Unicode set is not exercised by this code). -/
def pyWhitespaceChar (c : Char) : Bool :=
  c = ' ' || c = '\t' || c = '\n' || c = '\r' || c = '\x0b' || c = '\x0c'

/-- Python str.strip() on a character list: drop whitespace on both ends. -/
def pyStripList (l : List Char) : List Char :=
  ((l.dropWhile pyWhitespaceChar).reverse.dropWhile pyWhitespaceChar).reverse

/-- Python str.strip(). -/
def pyStrip (s : String) : String :=
  ⟨pyStripList s.data⟩

/-- ASCII lower-casing of one character, as Python str.lower() does for the
ASCII inputs this code handles. -/
def pyLowerChar (c : Char) : Char :=
  if 'A' ≤ c ∧ c ≤ 'Z' then Char.ofNat (c.toNat + 32) else c

/-- Python str.lower() (ASCII model). -/
def pyLower (s : String) : String :=
  ⟨s.data.map pyLowerChar⟩

/-- Value of a nonempty all-digit character list, most significant first. -/
def digitsVal (l : List Char) : Nat :=
  l.foldl (fun n c => n * 10 + (c.toNat - 48)) 0

/-- Decimal-digit run parser: some value only when the list is nonempty and
all digits. -/
def pyDigits? (l : List Char) : Option Nat :=
  if l = [] then none
  else if l.all Char.isDigit then some (digitsVal l) else none

/-- Model of Python int(str): strip whitespace, one optional sign, decimal
digits. Underscore grouping and non-ASCII digits are not modelled; no input
exercised here uses them. Returns none where Python raises ValueError. -/
def pyInt? (s : String) : Option Int :=
  match pyStripList s.data with
  | '-' :: rest => (pyDigits? rest).map (fun n => -(n : Int))
  | '+' :: rest => (pyDigits? rest).map (fun n => (n : Int))
  | l => (pyDigits? l).map (fun n => (n : Int))

/-- Magnitude of a plain decimal literal (digits with an optional fractional
part), as a rational. -/
def pyFloatMag? (l : List Char) : Option Rat :=
  let ip := l.takeWhile Char.isDigit
  match l.dropWhile Char.isDigit with
  | [] => if ip = [] then none else some ((digitsVal ip : Nat) : Rat)
  | '.' :: fp =>
    if fp.all Char.isDigit ∧ (ip ≠ [] ∨ fp ≠ []) then
      some ((digitsVal ip : Rat) + (digitsVal fp : Rat) / ((10 : Rat) ^ fp.length))
    else none
  | _ => none

/-- Model of Python float(str) on plain decimal literals: strip, optional
sign, digits with optional fractional part. Exponents, inf and nan are not
modelled; no claim depends on them. Returns none where Python raises
ValueError. -/
def pyFloat? (s : String) : Option Rat :=
  match pyStripList s.data with
  | '-' :: rest => (pyFloatMag? rest).map Neg.neg
  | '+' :: rest => pyFloatMag? rest
  | l => pyFloatMag? l

/-- Truthiness of an optional list value (Python: None and [] are falsy). -/
def pyTruthyList {α : Type} : Option (List α) → Bool
  | some (_ :: _) => true
  | _ => false

/-- Truthiness of an optional int (Python: None and 0 are falsy). -/
def pyTruthyOptInt : Option Int → Bool
  | none => false
  | some l => l ≠ 0

/-- The row-limit break test written in both strategies as
if limit_rows and records_written >= limit_rows: a None or zero limit never
breaks; any other integer limit is compared against the records written. -/
def pyLimitHit : Option Int → Nat → Bool
  | none, _ => false
  | some l, n => if l = 0 then false else decide ((n : Int) ≥ l)

/-- Effective null-value list: the source computes
self.null_values or ["", "NULL", "null"], so None and the empty list both
fall back to the default. -/
def effectiveNulls : Option (List String) → List String
  | some (x :: xs) => x :: xs
  | _ => ["", "NULL", "null"]

/-- Python list slice l[a:b] with a natural lower bound and an integer upper
bound; a negative upper bound counts from the end of the list. -/
def pySliceTo {α : Type} (l : List α) (a : Nat) (b : Int) : List α :=
  let bEff : Nat := if b < 0 then ((l.length : Int) + b).toNat else min b.toNat l.length
  (l.take bEff).drop a

/-- Structural splitter: split a character list at every occurrence of the
separator (Python str.split(sep) shape: one more piece than separators). -/
def splitCharList (sep : Char) : List Char → List (List Char)
  | [] => [[]]
  | c :: cs =>
    let r := splitCharList sep cs
    if c = sep then [] :: r
    else
      match r with
      | [] => [[c]]
      | l :: ls => (c :: l) :: ls

/-- List-based prefix test (used to model str.startswith). -/
def startsWithList : List Char → List Char → Bool
  | [], _ => true
  | _ :: _, [] => false
  | a :: as, b :: bs => a = b && startsWithList as bs

/-- The Python newline join of a list of lines. -/
def joinWithNewline : List String → String
  | [] => ""
  | [l] => l
  | l :: ls => l ++ "\n" ++ joinWithNewline ls

/-- First n characters of a string (kernel-reducible model of slicing). -/
def takeStr (n : Nat) (s : String) : String :=
  ⟨s.data.take n⟩

/-! ### Records and values -/

/-- A JSON-able scalar value as produced by the strategies. -/
inductive Value where
  | str (s : String)
  | int (n : Int)
  | num (q : Rat)
  | bool (b : Bool)
  | null
deriving DecidableEq

/-- A record: an insertion-ordered mapping from field name to value, the
model of the Python dicts the strategies build. -/
abbrev Record := List (String × Value)

/-- Python dict assignment d[k] = v: replace the value of an existing key in
place, otherwise append the new pair at the end. -/
def dictInsert (r : Record) (k : String) (v : Value) : Record :=
  match r with
  | [] => [(k, v)]
  | (k0, v0) :: rest => if k0 = k then (k, v) :: rest else (k0, v0) :: dictInsert rest k v

/-- Python d.get(k) (None when missing). -/
def dictGet (r : Record) (k : String) : Option Value :=
  (r.find? (fun p => p.1 = k)).map Prod.snd

/-- Assoc-list lookup for the small string-to-string configuration dicts
(rename, coerce): Python m.get(k). -/
def lookupStr (m : List (String × String)) (k : String) : Option String :=
  (m.find? (fun p => p.1 = k)).map Prod.snd

/-- Python truthiness of a record value. -/
def pyTruthyValue : Value → Bool
  | .str s => s ≠ ""
  | .int n => n ≠ 0
  | .num q => q ≠ 0
  | .bool b => b
  | .null => false

/-- Rendering of a record value inside an f-string. Only string values reach
the one f-string in this code (generate_ocid), since fixed-width records hold
only strings and nulls. -/
def pyStrOfValue : Value → String
  | .str s => s
  | .int n => toString n
  | .num q => toString q
  | .bool b => if b then "True" else "False"
  | .null => "None"

/-- Decidable equality for Except results (used to state and decide concrete
parse outcomes). -/
instance {ε α : Type} [DecidableEq ε] [DecidableEq α] : DecidableEq (Except ε α) := fun x y =>
  match x, y with
  | .ok a, .ok b => decidable_of_iff (a = b) (by simp)
  | .error a, .error b => decidable_of_iff (a = b) (by simp)
  | .ok _, .error _ => isFalse (by simp)
  | .error _, .ok _ => isFalse (by simp)

/-- The Python exceptions this code can raise or catch. -/
inductive PyError where
  | valueError
  | typeError
deriving DecidableEq

/-- The per-row error policy (the on_error configuration value). -/
inductive OnError where
  | skip
  | fail
deriving DecidableEq

/-! ### The delimited-text (CSV) strategy: csv_parser.py -/

/-- Model of Python csv.reader for inputs that contain no quote, escape or
carriage-return characters (all inputs exercised here): each newline-separated
line is split on the delimiter, a trailing newline produces no extra row, and
a blank interior line produces the empty row, exactly as csv.reader does. -/
def csvReaderRows (delimiter : Char) (content : String) : List (List String) :=
  let ls : List String := (splitCharList '\n' content.data).map (fun l => (⟨l⟩ : String))
  let ls := if ls.getLast? = some "" then ls.dropLast else ls
  ls.map (fun line =>
    if line = "" then []
    else (splitCharList delimiter line.data).map (fun l => (⟨l⟩ : String)))

/-- Constructor configuration of CsvResourceParser (dataclass fields and
defaults); quotechar, escapechar, encoding and line_separator only affect the
byte-level reader/writer and are absorbed by the csv.reader model. The field
includeCols models the source field named include (a Lean keyword). -/
structure CsvConfig where
  delimiter : Char := ','
  has_header : Bool := true
  headers : Option (List String) := none
  includeCols : Option (List String) := none
  rename : List (String × String) := []
  coerce : List (String × String) := []
  null_values : Option (List String) := none
  trim_whitespace : Bool := true
  skip_rows : Nat := 0
  limit_rows : Option Int := none
  on_error : OnError := .skip
  extra_fields_policy : String := "keep"
  schema_version : Option String := none
deriving DecidableEq

namespace CsvResourceParser

/-- CsvResourceParser._coerce_value: the int and float branches call Python
int()/float(), which raise ValueError on unparsable input; bool never raises;
date:<fmt> and str pass through, as does an unrecognised target type. -/
def coerce_value (value : String) (targetType : String) : Except PyError Value :=
  if targetType = "int" then
    match pyInt? value with
    | some n => .ok (.int n)
    | none => .error .valueError
  else if targetType = "float" then
    match pyFloat? value with
    | some q => .ok (.num q)
    | none => .error .valueError
  else if targetType = "bool" then
    .ok (.bool (decide (pyLower value ∈ ["true", "1", "yes", "on"])))
  else if startsWithList "date:".data targetType.data then
    .ok (.str value)
  else if targetType = "str" then
    .ok (.str value)
  else
    .ok (.str value)

/-- The parameters of the row loop of parse that stay fixed across rows
(the local variables bound from self at the top of parse). -/
structure RowCtx where
  renamedHeaders : List String
  includeIdx : List Nat
  coerce : List (String × String)
  nullValues : List String
  trimWs : Bool
  schemaVersion : Option String
  hasHeader : Bool
  skipRows : Nat
deriving DecidableEq

/-- The value-building fold of the row loop of parse: for each
(renamed header, cell) pair, trim if configured, map null_values entries to
null, and coerce non-null values (coercion may raise, which escapes to the
per-row handler). Note the coercion key is the renamed header here. -/
def buildRecord (coerce : List (String × String)) (nullValues : List String)
    (trimWs : Bool) : List (String × String) → Record → Except PyError Record
  | [], acc => .ok acc
  | (header, value) :: rest, acc =>
    let value := if trimWs then pyStrip value else value
    if value ∈ nullValues then
      buildRecord coerce nullValues trimWs rest (dictInsert acc header .null)
    else
      match lookupStr coerce header with
      | some t =>
        match coerce_value value t with
        | .ok v => buildRecord coerce nullValues trimWs rest (dictInsert acc header v)
        | .error e => .error e
      | none => buildRecord coerce nullValues trimWs rest (dictInsert acc header (.str value))

/-- One iteration of the row loop of parse (csv_parser.py lines 148-191):
column selection by index, padding/truncation to the header length, the
value-building fold, then the _schema_version and oc:source_row metadata.
The source-row value is row_num + skip_rows + (2 if has_header else 1). -/
def rowRecord (ctx : RowCtx) (rowNum : Nat) (row : List String) :
    Except PyError Record :=
  let filteredRow :=
    if ctx.includeIdx ≠ [] then ctx.includeIdx.map (fun i => row.getD i "") else row
  let padded :=
    (filteredRow ++ List.replicate (ctx.renamedHeaders.length - filteredRow.length) "").take
      ctx.renamedHeaders.length
  match buildRecord ctx.coerce ctx.nullValues ctx.trimWs (ctx.renamedHeaders.zip padded) [] with
  | .error e => .error e
  | .ok record =>
    let record :=
      match ctx.schemaVersion with
      | some sv => if sv ≠ "" then dictInsert record "_schema_version" (.str sv) else record
      | none => record
    .ok (dictInsert record "oc:source_row"
      (.str (toString (rowNum + ctx.skipRows + (if ctx.hasHeader then 2 else 1)))))

/-- The row loop of parse: stop early when the limit test fires, otherwise
process each row; a per-row error re-raises under on_error = fail and skips
the row under on_error = skip. Returns the emitted records in order and the
records_written count. -/
def parseLoop (ctx : RowCtx) (limitRows : Option Int) (onError : OnError) :
    List (List String) → Nat → Nat → List Record → Except PyError (List Record × Nat)
  | [], _, written, acc => .ok (acc.reverse, written)
  | row :: rest, rowNum, written, acc =>
    if pyLimitHit limitRows written then .ok (acc.reverse, written)
    else
      match rowRecord ctx rowNum row with
      | .ok r => parseLoop ctx limitRows onError rest (rowNum + 1) (written + 1) (r :: acc)
      | .error e =>
        match onError with
        | .fail => .error e
        | .skip => parseLoop ctx limitRows onError rest (rowNum + 1) written acc

/-- The body of parse after header resolution: column selection (an include
list that matches nothing leaves includeIdx empty, in which case the loop
falls back to the raw row), header renaming, skipping of initial rows
(running out of rows while skipping returns 0, which coincides with running
the loop on no rows), then the row loop. -/
def parseWithHeaders (cfg : CsvConfig) (nullValues : List String)
    (headers : List String) (dataRows : List (List String)) :
    Except PyError (List Record × Nat) :=
  let idxHdr :=
    if pyTruthyList cfg.includeCols then
      headers.enum.filter (fun p => p.2 ∈ cfg.includeCols.getD [])
    else headers.enum
  let includeIdx := idxHdr.map Prod.fst
  let effHeaders := idxHdr.map Prod.snd
  let renamedHeaders := effHeaders.map (fun h => (lookupStr cfg.rename h).getD h)
  let ctx : RowCtx :=
    { renamedHeaders := renamedHeaders, includeIdx := includeIdx, coerce := cfg.coerce,
      nullValues := nullValues, trimWs := cfg.trim_whitespace,
      schemaVersion := cfg.schema_version, hasHeader := cfg.has_header,
      skipRows := cfg.skip_rows }
  parseLoop ctx cfg.limit_rows cfg.on_error (dataRows.drop cfg.skip_rows) 0 0 []

/-- CsvResourceParser.parse over the token rows produced by csv.reader.
Header handling: with has_header and no explicit headers the first row is
consumed as the header (an empty input returns 0); with explicit headers the
reader is not advanced; with neither, the source raises
ValueError("Either has_header=True or headers must be provided"), which the
surrounding try/except swallows into a 0-record return when
on_error = "skip" and re-raises when on_error = "fail". -/
def parse (cfg : CsvConfig) (rows : List (List String)) :
    Except PyError (List Record × Nat) :=
  let nullValues := effectiveNulls cfg.null_values
  match cfg.headers with
  | some hs => parseWithHeaders cfg nullValues hs rows
  | none =>
    if cfg.has_header then
      match rows with
      | [] => .ok ([], 0)
      | hdr :: dataRows => parseWithHeaders cfg nullValues hdr dataRows
    else
      match cfg.on_error with
      | .fail => .error .valueError
      | .skip => .ok ([], 0)

end CsvResourceParser

namespace CsvResourceParser

/-- CsvResourceParser._process_row as defined, invoked with arguments that
match its parameter list. A csv.DictReader cell is a string or None (the
restval padding for short rows), modelled as Option String. The function is
total: a coercion failure is caught inside (except ValueError/TypeError) and
the original string value is kept; the coercion key here is the original
field name, and the rename applies only to the output key. -/
def process_row (rename coerce : List (String × String)) (nullValues : List String)
    (trimWs : Bool) (extraFieldsPolicy : String) (schemaVersion : Option String)
    (row : List (String × Option String)) : Record :=
  let step : Record → String × Option String → Record := fun acc p =>
    if extraFieldsPolicy = "drop" ∧ (lookupStr rename p.1).isNone then acc
    else
      let outField := (lookupStr rename p.1).getD p.1
      match p.2 with
      | none => dictInsert acc outField .null
      | some s0 =>
        let s := if trimWs then pyStrip s0 else s0
        if s ∈ nullValues then dictInsert acc outField .null
        else if s ≠ "" ∧ (lookupStr coerce p.1).isSome then
          match coerce_value s ((lookupStr coerce p.1).getD "") with
          | .ok v => dictInsert acc outField v
          | .error _ => dictInsert acc outField (.str s)
        else dictInsert acc outField (.str s)
  let r := row.foldl step []
  match schemaVersion with
  | some sv => if sv ≠ "" then dictInsert r "_schema_version" (.str sv) else r
  | none => r

/-- The outcome of one parse_stream invocation: the progress counts yielded,
the records written to the JSONL stream (in order), and the exception that
escaped the generator, if any. -/
structure StreamResult where
  yields : List Nat
  records : List Record
  error : Option PyError
deriving DecidableEq

/-- The row-processing call of parse_stream (csv_parser.py lines 279-282).
The call site passes eight positional arguments
(row, include, rename, coerce, null_values, trim_whitespace,
extra_fields_policy, schema_version) to _process_row, whose parameter list
(self, row, rename, coerce, null_values, trim_whitespace,
extra_fields_policy, schema_version) accepts at most seven after self, so
Python raises TypeError at every call, before the body of _process_row
runs. -/
def streamRowCall : Except PyError Record := .error .typeError

/-- The record loop of parse_stream: the limit test can break out early; each
row-processing call raises (streamRowCall), which on_error = fail re-raises
out of the generator and on_error = skip swallows; a successful call (never
reached) would write the record, count it and yield every 1000 records; on
normal exit the terminal count is yielded only when it is positive. -/
def streamLoop (limitRows : Option Int) (onError : OnError) :
    List (List String) → Nat → List Nat → List Record → StreamResult
  | [], written, yields, recs =>
    ⟨yields ++ (if written > 0 then [written] else []), recs.reverse, none⟩
  | _row :: rest, written, yields, recs =>
    if pyLimitHit limitRows written then
      ⟨yields ++ (if written > 0 then [written] else []), recs.reverse, none⟩
    else
      match streamRowCall with
      | .error e =>
        match onError with
        | .fail => ⟨yields, recs.reverse, some e⟩
        | .skip => streamLoop limitRows onError rest written yields recs
      | .ok r =>
        let written := written + 1
        let yields := if written % 1000 = 0 then yields ++ [written] else yields
        streamLoop limitRows onError rest written yields (r :: recs)

/-- CsvResourceParser.parse_stream over the decoded text lines of the input:
collect all lines (empty input returns at once), join them with newlines and
re-tokenise through csv.DictReader (which skips blank rows); explicit headers
replace consumption of the first row as field names; skip_rows consumes data
rows (running out returns at once, which coincides with the loop on no
rows); then the record loop. The dict contents of each row never matter
because every row-processing call raises TypeError (see streamRowCall). -/
def parse_stream (cfg : CsvConfig) (lines : List String) : StreamResult :=
  if lines = [] then ⟨[], [], none⟩
  else
    let allRows := (csvReaderRows cfg.delimiter (joinWithNewline lines)).filter (· ≠ [])
    let dataRows := if pyTruthyList cfg.headers then allRows else allRows.drop 1
    streamLoop cfg.limit_rows cfg.on_error (dataRows.drop cfg.skip_rows) 0 [] []

end CsvResourceParser

/-! ### The fixed-width strategy: fixed_width_parser.py -/

/-- One fixed-width field specification: name, 1-based start offset, length.
The data model fixes start as a 1-based offset, so start is at least 1 for
every specification this embedding is applied to. -/
structure FieldSpec where
  name : String
  start : Nat
  length : Nat
deriving DecidableEq

namespace FixedWidthResourceParser

/-- line.rstrip of newline and carriage-return characters. -/
def rstripNewline (s : String) : String :=
  ⟨(s.data.reverse.dropWhile (fun c => c = '\n' ∨ c = '\r')).reverse⟩

/-- FixedWidthResourceParser._parse_fixed_width_line: for each spec, slice
the line at the 0-based offset start - 1 for length characters (empty when
the offset is at or past the end of the line), strip whitespace on both
sides, and store null for an empty result, building the dict in spec
order. -/
def parse_fixed_width_line (line : String) (specs : List FieldSpec) : Record :=
  specs.foldl (fun record fs =>
    let start0 := fs.start - 1
    let value :=
      if start0 < line.data.length then pyStrip ⟨(line.data.drop start0).take fs.length⟩
      else ""
    dictInsert record fs.name (if value = "" then .null else .str value)) []

/-- FixedWidthResourceParser._get_default_us_fl_field_specs: the built-in
US_FL field-specification table. -/
def get_default_us_fl_field_specs : List FieldSpec :=
  [⟨"COR_NUMBER", 1, 12⟩, ⟨"COR_NAME", 13, 120⟩, ⟨"COR_STATUS", 204, 6⟩,
   ⟨"COR_FILING_TYPE", 210, 6⟩, ⟨"COR_FILE_DATE", 216, 8⟩,
   ⟨"COR_PRINC_ADD_1", 220, 50⟩, ⟨"COR_PRINC_ADD_2", 270, 50⟩,
   ⟨"COR_PRINC_CITY", 304, 30⟩, ⟨"COR_PRINC_ZIP", 334, 10⟩,
   ⟨"COR_MAIL_ADD_1", 344, 50⟩, ⟨"COR_MAIL_ADD_2", 394, 50⟩,
   ⟨"COR_MAIL_CITY", 444, 30⟩, ⟨"COR_MAIL_STATE", 474, 2⟩,
   ⟨"COR_MAIL_ZIP", 476, 10⟩, ⟨"COR_MAIL_COUNTRY", 486, 2⟩,
   ⟨"RA_NAME", 488, 50⟩, ⟨"RA_NAME_TYPE", 538, 1⟩, ⟨"RA_ADD_1", 539, 50⟩,
   ⟨"RA_CITY", 589, 30⟩, ⟨"RA_STATE", 619, 2⟩, ⟨"RA_ZIP5", 621, 5⟩,
   ⟨"PRINC1_TITLE", 544, 4⟩, ⟨"PRINC1_NAME_TYPE", 548, 1⟩,
   ⟨"PRINC1_NAME", 549, 46⟩, ⟨"PRINC1_ADD_1", 595, 50⟩,
   ⟨"PRINC1_CITY", 645, 30⟩, ⟨"PRINC1_STATE", 675, 2⟩, ⟨"PRINC1_ZIP5", 677, 5⟩,
   ⟨"PRINC2_TITLE", 682, 4⟩, ⟨"PRINC2_NAME_TYPE", 686, 1⟩,
   ⟨"PRINC2_NAME", 687, 46⟩, ⟨"PRINC2_ADD_1", 733, 50⟩,
   ⟨"PRINC2_CITY", 783, 30⟩, ⟨"PRINC2_STATE", 813, 2⟩, ⟨"PRINC2_ZIP5", 815, 5⟩,
   ⟨"PRINC3_TITLE", 820, 4⟩, ⟨"PRINC3_NAME_TYPE", 824, 1⟩,
   ⟨"PRINC3_NAME", 825, 46⟩, ⟨"PRINC3_ADD_1", 871, 50⟩,
   ⟨"PRINC3_CITY", 921, 30⟩, ⟨"PRINC3_STATE", 951, 2⟩, ⟨"PRINC3_ZIP5", 953, 5⟩,
   ⟨"PRINC4_TITLE", 958, 4⟩, ⟨"PRINC4_NAME_TYPE", 962, 1⟩,
   ⟨"PRINC4_NAME", 963, 46⟩, ⟨"PRINC4_ADD_1", 1009, 50⟩,
   ⟨"PRINC4_CITY", 1059, 30⟩, ⟨"PRINC4_STATE", 1089, 2⟩, ⟨"PRINC4_ZIP5", 1091, 5⟩,
   ⟨"PRINC5_TITLE", 1096, 4⟩, ⟨"PRINC5_NAME_TYPE", 1100, 1⟩,
   ⟨"PRINC5_NAME", 1101, 46⟩, ⟨"PRINC5_ADD_1", 1147, 50⟩,
   ⟨"PRINC5_CITY", 1197, 30⟩, ⟨"PRINC5_STATE", 1227, 2⟩, ⟨"PRINC5_ZIP5", 1229, 5⟩,
   ⟨"PRINC6_TITLE", 1234, 4⟩, ⟨"PRINC6_NAME_TYPE", 1238, 1⟩,
   ⟨"PRINC6_NAME", 1239, 46⟩, ⟨"PRINC6_ADD_1", 1285, 50⟩,
   ⟨"PRINC6_CITY", 1335, 30⟩, ⟨"PRINC6_STATE", 1365, 2⟩, ⟨"PRINC6_ZIP5", 1367, 5⟩,
   ⟨"STATE_COUNTRY", 1372, 2⟩, ⟨"RetrievedAt", 1374, 10⟩]

end FixedWidthResourceParser

/-! ### SHA-256 (the hashlib.sha256 digest used by generate_ocid),
implemented over Nat with explicit reduction modulo 2^32 -/

/-- Reduce modulo 2^32. -/
def w32 (x : Nat) : Nat := x % 4294967296

/-- 32-bit right rotation. -/
def rotr32 (n x : Nat) : Nat := w32 ((x >>> n) ||| (x <<< (32 - n)))

/-- UTF-8 encoding of one character (str.encode building block). -/
def utf8EncodeChar (c : Char) : List Nat :=
  let n := c.toNat
  if n < 128 then [n]
  else if n < 2048 then [192 + n / 64, 128 + n % 64]
  else if n < 65536 then [224 + n / 4096, 128 + (n / 64) % 64, 128 + n % 64]
  else [240 + n / 262144, 128 + (n / 4096) % 64, 128 + (n / 64) % 64, 128 + n % 64]

/-- UTF-8 encoding of a string (Python str.encode()). -/
def utf8Encode (s : String) : List Nat :=
  s.data.foldr (fun c acc => utf8EncodeChar c ++ acc) []

/-- SHA-256 round constants (decimal renderings of the standard values). -/
def sha256K : List Nat :=
  [1116352408, 1899447441, 3049323471, 3921009573, 961987163, 1508970993,
   2453635748, 2870763221, 3624381080, 310598401, 607225278, 1426881987,
   1925078388, 2162078206, 2614888103, 3248222580, 3835390401, 4022224774,
   264347078, 604807628, 770255983, 1249150122, 1555081692, 1996064986,
   2554220882, 2821834349, 2952996808, 3210313671, 3336571891, 3584528711,
   113926993, 338241895, 666307205, 773529912, 1294757372, 1396182291,
   1695183700, 1986661051, 2177026350, 2456956037, 2730485921, 2820302411,
   3259730800, 3345764771, 3516065817, 3600352804, 4094571909, 275423344,
   430227734, 506948616, 659060556, 883997877, 958139571, 1322822218,
   1537002063, 1747873779, 1955562222, 2024104815, 2227730452, 2361852424,
   2428436474, 2756734187, 3204031479, 3329325298]

/-- SHA-256 initial hash state (decimal renderings of the standard values). -/
def sha256H0 : List Nat :=
  [1779033703, 3144134277, 1013904242, 2773480762,
   1359893119, 2600822924, 528734635, 1541459225]

/-- Big-endian byte rendering of x in n bytes. -/
def beBytes (n x : Nat) : List Nat :=
  (List.range n).map (fun i => (x >>> (8 * (n - 1 - i))) % 256)

/-- SHA-256 message padding: 0x80, zeros to 56 mod 64, 8-byte bit length. -/
def sha256Pad (msg : List Nat) : List Nat :=
  let padZeros := (119 - msg.length % 64) % 64
  msg ++ [128] ++ List.replicate padZeros 0 ++ beBytes 8 (msg.length * 8)

/-- Split a padded byte list into 64-byte blocks (structural recursion with
an accumulator of the current partial block, reversed). -/
def chunk64Go : List Nat → List Nat → List (List Nat)
  | [], acc => if acc = [] then [] else [acc.reverse]
  | b :: bs, acc =>
    if acc.length = 63 then (b :: acc).reverse :: chunk64Go bs []
    else chunk64Go bs (b :: acc)

/-- Big-endian 32-bit words from a byte list. -/
def bytesToWords : List Nat → List Nat
  | a :: b :: c :: d :: rest => (a * 16777216 + b * 65536 + c * 256 + d) :: bytesToWords rest
  | _ => []

/-- The SHA-256 sigma functions and bitwise combiners. -/
def bigSigma0 (x : Nat) : Nat := rotr32 2 x ^^^ rotr32 13 x ^^^ rotr32 22 x

def bigSigma1 (x : Nat) : Nat := rotr32 6 x ^^^ rotr32 11 x ^^^ rotr32 25 x

def smallSigma0 (x : Nat) : Nat := rotr32 7 x ^^^ rotr32 18 x ^^^ (x >>> 3)

def smallSigma1 (x : Nat) : Nat := rotr32 17 x ^^^ rotr32 19 x ^^^ (x >>> 10)

def chFn (x y z : Nat) : Nat := (x &&& y) ^^^ ((x ^^^ 4294967295) &&& z)

def majFn (x y z : Nat) : Nat := (x &&& y) ^^^ (x &&& z) ^^^ (y &&& z)

/-- Extend the 16-word schedule by the given number of words (48 for a full
block). -/
def extendSchedule : Nat → List Nat → List Nat
  | 0, w => w
  | fuel + 1, w =>
    let i := w.length
    extendSchedule fuel (w ++ [w32 (smallSigma1 (w.getD (i - 2) 0) + w.getD (i - 7) 0 +
      smallSigma0 (w.getD (i - 15) 0) + w.getD (i - 16) 0)])

/-- One compression round given k + w for this round. -/
def sha256Round (state : List Nat) (kw : Nat) : List Nat :=
  match state with
  | [a, b, c, d, e, f, g, h] =>
    let t1 := w32 (h + bigSigma1 e + chFn e f g + kw)
    let t2 := w32 (bigSigma0 a + majFn a b c)
    [w32 (t1 + t2), a, b, c, w32 (d + t1), e, f, g]
  | s => s

/-- Process one 64-byte block. -/
def sha256Block (h : List Nat) (block : List Nat) : List Nat :=
  let w := extendSchedule 48 (bytesToWords block)
  let kw := (sha256K.zip w).map (fun p => w32 (p.1 + p.2))
  let fin := kw.foldl sha256Round h
  (h.zip fin).map (fun p => w32 (p.1 + p.2))

/-- SHA-256 digest bytes of a byte message. -/
def sha256Bytes (msg : List Nat) : List Nat :=
  let blocks := chunk64Go (sha256Pad msg) []
  (blocks.foldl sha256Block sha256H0).foldr (fun word acc => beBytes 4 word ++ acc) []

/-- Lowercase hex digit. -/
def hexDigitChar (n : Nat) : Char :=
  "0123456789abcdef".data.getD n '0'

/-- Lowercase hex string of a byte list. -/
def bytesToHex (bs : List Nat) : String :=
  ⟨bs.foldr (fun b acc => hexDigitChar (b / 16) :: hexDigitChar (b % 16) :: acc) []⟩

/-- hashlib.sha256(s.encode()).hexdigest(). -/
def sha256Hex (s : String) : String :=
  bytesToHex (sha256Bytes (utf8Encode s))

/-! ### Fixed-width parse and OCID generation -/

/-- The ocid_generator configuration dict. none for the whole dict models an
absent key or the empty dict (both falsy at the if ocid_generator test);
none for an entry models an absent key, resolved by .get defaults. -/
structure OcidGen where
  jurisdiction_code : Option String := none
  company_number_field : Option String := none
deriving DecidableEq

/-- The parser_kv_args configuration dict of FixedWidthResourceParser.parse.
field_specs = none models an absent key (which falls back to the default
US_FL table); some [] models an explicitly empty list. -/
structure FwConfig where
  field_specs : Option (List FieldSpec) := none
  skip_rows : Nat := 0
  limit_rows : Option Int := none
  on_error : OnError := .skip
  schema_version : Option String := none
  ocid_generator : Option OcidGen := none
deriving DecidableEq

namespace FixedWidthResourceParser

/-- FixedWidthResourceParser._generate_ocid: read jurisdiction_code (default
us_fl) and company_number_field (default COR_NUMBER) from the configuration,
fetch the record value of that field (empty string when missing); a truthy
value is hashed as the first 16 hex characters of
sha256("<jurisdiction_code>|<company_number>") under the ocid:v1:co: scheme,
a falsy one yields ocid:v1:co:unknown. -/
def generate_ocid (record : Record) (g : OcidGen) : String :=
  let jurisdiction := g.jurisdiction_code.getD "us_fl"
  let field := g.company_number_field.getD "COR_NUMBER"
  let companyNumber := (dictGet record field).getD (.str "")
  if pyTruthyValue companyNumber then
    "ocid:v1:co:" ++ takeStr 16 (sha256Hex (jurisdiction ++ "|" ++ pyStrOfValue companyNumber))
  else "ocid:v1:co:unknown"

/-- The body of the line loop of parse for one line (fixed_width_parser.py
lines 67-86): parse the rstripped line against the specs, then attach
_schema_version (when truthy), the oc:source_row line number, and oc:ocid
when an ocid_generator is configured. This body is total, so the per-line
except branch is never taken and on_error is not consulted. -/
def lineRecord (specs : List FieldSpec) (schemaVersion : Option String)
    (ocidGenerator : Option OcidGen) (lineNum : Nat) (line : String) : Record :=
  let record := parse_fixed_width_line (rstripNewline line) specs
  let record :=
    match schemaVersion with
    | some sv => if sv ≠ "" then dictInsert record "_schema_version" (.str sv) else record
    | none => record
  let record := dictInsert record "oc:source_row" (.str (toString lineNum))
  match ocidGenerator with
  | some g => dictInsert record "oc:ocid" (.str (generate_ocid record g))
  | none => record

/-- The line loop of parse, carrying the 1-based line number
(enumerate(..., start=start_line + 1)). -/
def parseLines (specs : List FieldSpec) (schemaVersion : Option String)
    (ocidGenerator : Option OcidGen) : List String → Nat → List Record
  | [], _ => []
  | l :: ls, n =>
    lineRecord specs schemaVersion ocidGenerator n l ::
      parseLines specs schemaVersion ocidGenerator ls (n + 1)

/-- FixedWidthResourceParser.parse over the lines of the input file (as read
by readlines, terminators included): resolve field_specs with the default
US_FL table for an absent key, compute the processed window
lines[skip_rows : end] where a truthy limit_rows moves the end to
min(skip_rows + limit_rows, len(lines)) with Python slice semantics, and
emit one record per line in the window. The per-line body is total, so the
surrounding try/except never fires and the function always returns the
records and their count. -/
def parse (cfg : FwConfig) (fileLines : List String) :
    Except PyError (List Record × Nat) :=
  let specs := cfg.field_specs.getD get_default_us_fl_field_specs
  let startLine := cfg.skip_rows
  let endLine : Int :=
    if pyTruthyOptInt cfg.limit_rows then
      min ((startLine : Int) + cfg.limit_rows.getD 0) (fileLines.length : Int)
    else (fileLines.length : Int)
  let window := pySliceTo fileLines startLine endLine
  let recs := parseLines specs cfg.schema_version cfg.ocid_generator window (startLine + 1)
  .ok (recs, recs.length)

end FixedWidthResourceParser

/-! ### The byte-to-text decode adapter: async_utils.py -/

/-- Is this byte a valid UTF-8 continuation byte. -/
def contByte (b : Nat) : Bool := 128 ≤ b && b ≤ 191

/-- One step of UTF-8 decoding on a nonempty byte list: either
(some codepoint, bytes consumed) for a valid sequence, or (none, length of
the maximal invalid subpart to skip). The skip lengths follow the CPython
errors="replace" handler, which emits one replacement character per maximal
invalid subpart (a truncated but so-far-valid sequence counts as one
subpart). Overlong encodings, surrogates and codepoints above 0x10FFFF are
rejected by the continuation ranges, so every produced codepoint is a valid
scalar value. -/
def utf8Step (bs : List Nat) : Option Nat × Nat :=
  match bs with
  | [] => (none, 1)
  | b :: rest =>
    if b < 128 then (some b, 1)
    else if 194 ≤ b ∧ b ≤ 223 then
      match rest with
      | c1 :: _ =>
        if contByte c1 then (some ((b - 192) * 64 + (c1 - 128)), 2) else (none, 1)
      | [] => (none, 1)
    else if 224 ≤ b ∧ b ≤ 239 then
      let lo1 := if b = 224 then 160 else 128
      let hi1 := if b = 237 then 159 else 191
      match rest with
      | c1 :: rest2 =>
        if lo1 ≤ c1 ∧ c1 ≤ hi1 then
          match rest2 with
          | c2 :: _ =>
            if contByte c2 then
              (some ((b - 224) * 4096 + (c1 - 128) * 64 + (c2 - 128)), 3)
            else (none, 2)
          | [] => (none, 2)
        else (none, 1)
      | [] => (none, 1)
    else if 240 ≤ b ∧ b ≤ 244 then
      let lo1 := if b = 240 then 144 else 128
      let hi1 := if b = 244 then 143 else 191
      match rest with
      | c1 :: rest2 =>
        if lo1 ≤ c1 ∧ c1 ≤ hi1 then
          match rest2 with
          | c2 :: rest3 =>
            if contByte c2 then
              match rest3 with
              | c3 :: _ =>
                if contByte c3 then
                  (some ((b - 240) * 262144 + (c1 - 128) * 4096 + (c2 - 128) * 64 +
                    (c3 - 128)), 4)
                else (none, 3)
              | [] => (none, 3)
            else (none, 2)
          | [] => (none, 2)
        else (none, 1)
      | [] => (none, 1)
    else (none, 1)

/-- Fuel-driven UTF-8 decode loop: decoded characters plus a flag that is
false when any invalid subpart was replaced. Each step consumes at least one
byte, so fuel equal to the input length always suffices. -/
def utf8DecodeLoop : Nat → List Nat → List Char × Bool
  | _, [] => ([], true)
  | 0, _ :: _ => ([], true)
  | fuel + 1, b :: bs =>
    match utf8Step (b :: bs) with
    | (some code, k) =>
      let r := utf8DecodeLoop fuel ((b :: bs).drop k)
      (Char.ofNat code :: r.1, r.2)
    | (none, k) =>
      let r := utf8DecodeLoop fuel ((b :: bs).drop k)
      ('�' :: r.1, false)

/-- bytes.decode(encoding, errors="replace"). -/
def pyDecodeReplace (bs : List Nat) : String :=
  ⟨(utf8DecodeLoop bs.length bs).1⟩

/-- bytes.decode(encoding): none models UnicodeDecodeError. -/
def pyDecodeStrict (bs : List Nat) : Option String :=
  let r := utf8DecodeLoop bs.length bs
  if r.2 then some ⟨r.1⟩ else none

/-- The per-segment decode of async_bytes_to_text_stream: try the strict
decode and fall back to replacement on UnicodeDecodeError. -/
def decodeSegment (bs : List Nat) : String :=
  match pyDecodeStrict bs with
  | some s => s
  | none => pyDecodeReplace bs

/-- The inner while loop of async_bytes_to_text_stream
(while newline in buffer: split at the first newline): all complete
newline-terminated segments, in order, and the remaining buffer, which
contains no newline byte. Computed here by one pass over the bytes, which
yields the same segments as repeated splitting at the first newline. -/
def extractLines : List Nat → List (List Nat) × List Nat
  | [] => ([], [])
  | b :: bs =>
    let r := extractLines bs
    if b = 10 then ([] :: r.1, r.2)
    else
      match r with
      | ([], rem) => ([], b :: rem)
      | (l :: ls, rem) => ((b :: l) :: ls, rem)

/-- The chunk loop of async_bytes_to_text_stream: append each chunk to the
buffer, decode and yield every complete segment, and after the source is
exhausted decode and yield the nonempty residual buffer once. -/
def streamGo (buffer : List Nat) : List (List Nat) → List String
  | [] => if buffer = [] then [] else [decodeSegment buffer]
  | c :: cs =>
    let r := extractLines (buffer ++ c)
    r.1.map decodeSegment ++ streamGo r.2 cs

/-- async_bytes_to_text_stream over the finite list of byte chunks the
source yields. -/
def async_bytes_to_text_stream (chunks : List (List Nat)) : List String :=
  streamGo [] chunks

/-! ### Resource-to-strategy resolution: parser.py lines 103-128 -/

/-- The resolution loop of run_parser: iterate the pattern-to-configuration
mapping in insertion order and select the first entry whose pattern matches
the resource name (the loop breaks at the first match). The rmatch parameter
stands for Python re.match, whose regular-expression semantics belong to an
external collaborator. -/
def resolveParser {α : Type} (rmatch : String → String → Bool)
    (parsers : List (String × α)) (resourceName : String) : Option (String × α) :=
  match parsers with
  | [] => none
  | (pat, cfg) :: rest =>
    if rmatch pat resourceName then some (pat, cfg)
    else resolveParser rmatch rest resourceName

/-- What run_parser does with one resource at the resolution step. The
configError constructor is what a ConfigurationError failure would be; the
code never produces it. -/
inductive ResourceOutcome (α : Type) where
  | parsed (pattern : String) (cfg : α)
  | skipped
  | configError
deriving DecidableEq

/-- The dispatch of one resource in run_parser: a resolved strategy is
parsed; if not parser_strategy the code logs NO_PARSER_FOUND and continues
with the next resource, so the resource is skipped and no error is
raised. -/
def resourceDispatch {α : Type} (rmatch : String → String → Bool)
    (parsers : List (String × α)) (resourceName : String) : ResourceOutcome α :=
  match resolveParser rmatch parsers resourceName with
  | some pc => .parsed pc.1 pc.2
  | none => .skipped

/-! ### Statement helpers and spec-side descriptions.
The definitions below follow the words of the specification, for comparison
against the source-derived definitions above. -/

/-- Records of a parse result (empty when the parse raised). -/
def parseRecords (res : Except PyError (List Record × Nat)) : List Record :=
  match res with
  | .ok p => p.1
  | .error _ => []

/-- Returned record count of a parse result (none when the parse raised). -/
def parseCount (res : Except PyError (List Record × Nat)) : Option Nat :=
  match res with
  | .ok p => some p.2
  | .error _ => none

/-- Spec-side description of one fixed-width field extraction, following the
words of the claim: take the substring at 1-based offset start of the given
length, trim whitespace on both sides, and map an empty result (including an
offset at or past the end of the line) to null. -/
def fixedWidthSpecValue (line : String) (s : FieldSpec) : Value :=
  let t := pyStrip ⟨(line.data.drop (s.start - 1)).take s.length⟩
  if t = "" then .null else .str t

/-- Spec-side description of the generated identifier, following the words
of the claim: ocid:v1:co: followed by the first 16 hex characters of a
cryptographic digest of "<jurisdiction_code>|<company_number>", and exactly
ocid:v1:co:unknown when the company number is empty. -/
def ocidSpec (jurisdiction companyNumber : String) : String :=
  if companyNumber = "" then "ocid:v1:co:unknown"
  else "ocid:v1:co:" ++ takeStr 16 (sha256Hex (jurisdiction ++ "|" ++ companyNumber))

/-- The string a record holds for a field: the stored string, or empty when
the field is missing or null (the only non-string values the fixed-width
records contain). -/
def recordFieldStr (r : Record) (f : String) : String :=
  match dictGet r f with
  | some (.str s) => s
  | _ => ""

/-- Every value of the record is a string or null (true of all records the
fixed-width strategy builds). -/
def valueStrOrNull : Value → Bool
  | .str _ => true
  | .null => true
  | _ => false

/-- Spec-side description of the decode adapter output, following the words
of the claim: split the whole byte sequence at newline bytes, decode every
complete segment under the replacement policy, and decode a nonempty
residual exactly once at the end. -/
def lineSplitDecode (bs : List Nat) : List String :=
  let r := extractLines bs
  r.1.map decodeSegment ++ (if r.2 = [] then [] else [decodeSegment r.2])

/-! ### Helper lemmas -/

theorem extractLines_no_newline : ∀ (bs : List Nat), (∀ x ∈ bs, x ≠ 10) →
    extractLines bs = ([], bs) := by
  intro bs h
  induction bs with
  | nil => rfl
  | cons b rest ih =>
    have hb : b ≠ 10 := h b (by simp)
    have hr : extractLines rest = ([], rest) := ih (fun x hx => h x (by simp [hx]))
    simp [extractLines, hb, hr]

theorem extractLines_rem_no_newline : ∀ (bs : List Nat),
    ∀ x ∈ (extractLines bs).2, x ≠ 10 := by
  intro bs
  induction bs with
  | nil => simp [extractLines]
  | cons b rest ih =>
    by_cases hb : b = 10
    · simpa [extractLines, hb] using ih
    · rcases hr : extractLines rest with ⟨ls, rem⟩
      rw [hr] at ih
      cases ls with
      | nil =>
        simp only [extractLines, hb, if_false, hr]
        intro x hx
        rcases List.mem_cons.mp hx with h1 | h2
        · exact h1 ▸ hb
        · exact ih x h2
      | cons l ls2 => simpa [extractLines, hb, hr] using ih

theorem extractLines_cons_newline (bs : List Nat) :
    extractLines (10 :: bs) = ([] :: (extractLines bs).1, (extractLines bs).2) := by
  simp [extractLines]

theorem extractLines_cons_other (x : Nat) (bs : List Nat) (hx : x ≠ 10) :
    extractLines (x :: bs) =
      (match extractLines bs with
        | ([], rem) => ([], x :: rem)
        | (l :: ls, rem) => ((x :: l) :: ls, rem)) := by
  simp [extractLines, hx]

theorem extractLines_append : ∀ (a b : List Nat),
    extractLines (a ++ b) =
      ((extractLines a).1 ++ (extractLines ((extractLines a).2 ++ b)).1,
        (extractLines ((extractLines a).2 ++ b)).2) := by
  intro a b
  induction a with
  | nil => simp [extractLines]
  | cons x a2 ih =>
    by_cases hx : x = 10
    · subst hx
      rw [List.cons_append, extractLines_cons_newline, extractLines_cons_newline, ih]
      simp
    · rcases ha : extractLines a2 with ⟨l1, r1⟩
      rw [ha] at ih
      rcases hb2 : extractLines (r1 ++ b) with ⟨l2, r2⟩
      rw [hb2] at ih
      simp only [Prod.fst, Prod.snd] at ih
      cases l1 with
      | nil =>
        simp only [List.nil_append] at ih
        rw [List.cons_append, extractLines_cons_other _ _ hx, ih,
          extractLines_cons_other _ _ hx, ha]
        cases l2 with
        | nil =>
          rw [show extractLines ((x :: r1) ++ b) = ([], x :: r2) from by
            rw [List.cons_append, extractLines_cons_other _ _ hx, hb2]]
          simp
        | cons m ms =>
          rw [show extractLines ((x :: r1) ++ b) = ((x :: m) :: ms, r2) from by
            rw [List.cons_append, extractLines_cons_other _ _ hx, hb2]]
          simp
      | cons m ms =>
        rw [List.cons_append, extractLines_cons_other _ _ hx, ih,
          extractLines_cons_other _ _ hx, ha]
        rw [show extractLines (r1 ++ b) = (l2, r2) from hb2]
        simp

theorem streamGo_eq : ∀ (chunks : List (List Nat)) (buffer : List Nat),
    (∀ x ∈ buffer, x ≠ 10) →
    streamGo buffer chunks = lineSplitDecode (buffer ++ chunks.flatten) := by
  intro chunks
  induction chunks with
  | nil =>
    intro buf hbuf
    simp only [streamGo, List.flatten_nil, List.append_nil, lineSplitDecode,
      extractLines_no_newline buf hbuf]
    cases buf <;> simp
  | cons c cs ih =>
    intro buf hbuf
    simp only [streamGo, List.flatten_cons]
    rw [ih _ (extractLines_rem_no_newline _)]
    show _ = lineSplitDecode (buf ++ (c ++ cs.flatten))
    rw [← List.append_assoc, lineSplitDecode, lineSplitDecode,
      extractLines_append (buf ++ c) cs.flatten]
    simp [List.map_append, List.append_assoc]

theorem dictInsert_append (r : Record) (k : String) (v : Value)
    (h : k ∉ r.map Prod.fst) : dictInsert r k v = r ++ [(k, v)] := by
  induction r with
  | nil => rfl
  | cons p rest ih =>
    obtain ⟨k0, v0⟩ := p
    simp only [List.map_cons, List.mem_cons, not_or] at h
    have hne : k0 ≠ k := fun he => h.1 he.symm
    simp [dictInsert, hne, ih h.2]

theorem foldl_dictInsert_map (g : FieldSpec → Value) :
    ∀ (specs : List FieldSpec) (acc : Record),
      (specs.map FieldSpec.name).Nodup →
      (∀ s ∈ specs, s.name ∉ acc.map Prod.fst) →
      specs.foldl (fun record fs => dictInsert record fs.name (g fs)) acc
        = acc ++ specs.map (fun s => (s.name, g s)) := by
  intro specs
  induction specs with
  | nil => intro acc _ _; simp
  | cons s rest ih =>
    intro acc hnd hacc
    simp only [List.map_cons, List.nodup_cons] at hnd
    simp only [List.foldl_cons]
    rw [dictInsert_append acc s.name (g s) (hacc s (by simp))]
    rw [ih (acc ++ [(s.name, g s)]) hnd.2 (fun t ht => ?_)]
    · simp
    · have h1 : t.name ∉ acc.map Prod.fst := hacc t (by simp [ht])
      have h2 : t.name ≠ s.name := by
        intro he
        exact hnd.1 (he ▸ List.mem_map_of_mem FieldSpec.name ht)
      simp [h1, h2]

theorem dictGet_dictInsert_self (r : Record) (k : String) (v : Value) :
    dictGet (dictInsert r k v) k = some v := by
  induction r with
  | nil => simp [dictInsert, dictGet]
  | cons p rest ih =>
    obtain ⟨k0, v0⟩ := p
    by_cases h : k0 = k
    · simp [dictInsert, h, dictGet]
    · simpa [dictInsert, h, dictGet] using ih

theorem mem_parseLines (specs : List FieldSpec) (sv : Option String)
    (og : Option OcidGen) : ∀ (ls : List String) (n : Nat) (r : Record),
      r ∈ FixedWidthResourceParser.parseLines specs sv og ls n →
      ∃ m l, r = FixedWidthResourceParser.lineRecord specs sv og m l := by
  intro ls
  induction ls with
  | nil =>
    intro n r h
    simp [FixedWidthResourceParser.parseLines] at h
  | cons l ls2 ih =>
    intro n r h
    rw [FixedWidthResourceParser.parseLines] at h
    rcases List.mem_cons.mp h with h1 | h2
    · exact ⟨n, l, h1⟩
    · exact ih (n + 1) r h2

theorem parseLoop_limit_zero (ctx : CsvResourceParser.RowCtx) (onError : OnError) :
    ∀ (rows : List (List String)) (n w : Nat) (acc : List Record),
      CsvResourceParser.parseLoop ctx (some 0) onError rows n w acc
        = CsvResourceParser.parseLoop ctx none onError rows n w acc := by
  intro rows
  induction rows with
  | nil => intro n w acc; rfl
  | cons row rest ih =>
    intro n w acc
    simp only [CsvResourceParser.parseLoop]
    have h0 : pyLimitHit (some 0) w = false := by simp [pyLimitHit]
    have h1 : pyLimitHit none w = false := rfl
    rw [h0, h1]
    simp only [Bool.false_eq_true, if_false]
    cases hr : CsvResourceParser.rowRecord ctx n row with
    | ok r => exact ih (n + 1) (w + 1) (r :: acc)
    | error e =>
      cases onError with
      | fail => rfl
      | skip => exact ih (n + 1) w acc

theorem parseLoop_neg_limit (ctx : CsvResourceParser.RowCtx) (onError : OnError)
    (l : Int) (hl : l < 0) :
    ∀ rows, CsvResourceParser.parseLoop ctx (some l) onError rows 0 0 [] = .ok ([], 0) := by
  have hhit : pyLimitHit (some l) 0 = true := by
    simp only [pyLimitHit]
    rw [if_neg (by omega : ¬l = 0)]
    simp only [decide_eq_true_eq]
    omega
  intro rows
  cases rows with
  | nil => simp [CsvResourceParser.parseLoop]
  | cons r rest => simp [CsvResourceParser.parseLoop, hhit]

theorem streamLoop_limit_zero (onError : OnError) :
    ∀ (rows : List (List String)) (w : Nat) (ys : List Nat) (recs : List Record),
      CsvResourceParser.streamLoop (some 0) onError rows w ys recs
        = CsvResourceParser.streamLoop none onError rows w ys recs := by
  intro rows
  induction rows with
  | nil => intro w ys recs; rfl
  | cons row rest ih =>
    intro w ys recs
    simp only [CsvResourceParser.streamLoop]
    have h0 : pyLimitHit (some 0) w = false := by simp [pyLimitHit]
    have h1 : pyLimitHit none w = false := rfl
    rw [h0, h1]
    simp only [Bool.false_eq_true, if_false, CsvResourceParser.streamRowCall]
    cases onError with
    | fail => rfl
    | skip => exact ih w ys recs

set_option maxRecDepth 10000 in
/-- Sanity vector for the SHA-256 implementation: the digest of abc. -/
theorem sha256Hex_abc_vector :
    sha256Hex "abc"
      = "ba7816bf8f01cfea414140de5dae2223b00361a396177a9cb410ff61f20015ad" := by
  decide

theorem streamLoop_yields_nil (limitRows : Option Int) (onError : OnError) :
    ∀ (rows : List (List String)),
      (CsvResourceParser.streamLoop limitRows onError rows 0 [] []).yields = [] := by
  intro rows
  induction rows with
  | nil => simp [CsvResourceParser.streamLoop]
  | cons r rest ih =>
    by_cases hl : pyLimitHit limitRows 0
    · simp [CsvResourceParser.streamLoop, hl]
    · cases onError with
      | fail => simp [CsvResourceParser.streamLoop, hl, CsvResourceParser.streamRowCall]
      | skip => simpa [CsvResourceParser.streamLoop, hl, CsvResourceParser.streamRowCall] using ih

/-! ### Claim theorems -/

/-- Claim C2: the source-row marker. The delimited parse attaches oc:source_row
with the 1-based line number (header accounted for): on the input of the
claim it emits exactly the two records carrying "2" and "3". The fixed-width
parse attaches oc:source_row as well. But the streaming path contradicts the
claim and the tests of the repository: on the same input, parse_stream emits
no records at all, because its row-processing call raises TypeError for
every row (one positional argument too many), so the expected streamed
records carrying the marker never exist. -/
theorem source_row_marker_behavior :
    CsvResourceParser.parse {} (csvReaderRows ',' "name,age\nJohn,30\nJane,25")
      = .ok ([[("name", .str "John"), ("age", .str "30"), ("oc:source_row", .str "2")],
              [("name", .str "Jane"), ("age", .str "25"), ("oc:source_row", .str "3")]], 2)
    ∧ CsvResourceParser.parse_stream {} ["name,age", "John,30", "Jane,25"] = ⟨[], [], none⟩
    ∧ parseCount (FixedWidthResourceParser.parse {} ["L25000418660"]) = some 1
    ∧ dictGet ((parseRecords (FixedWidthResourceParser.parse {} ["L25000418660"])).getD 0 [])
        "oc:source_row" = some (.str "1") := by
  refine ⟨by decide, by decide, by decide, by decide⟩

/-- Claim C5: progress counts of parse_stream. The claimed strict increase
holds only vacuously: the yielded sequence of every parse_stream invocation
is empty, for every configuration and input, because every row-processing
call raises TypeError (argument-count mismatch), records_written stays 0,
and the final yield is guarded by records_written > 0. In particular no
terminal count is ever yielded, contradicting the claim (and the tests of
the repository, which expect a final yield equal to the record count). -/
theorem stream_progress_behavior :
    (∀ (cfg : CsvConfig) (lines : List String),
      (CsvResourceParser.parse_stream cfg lines).yields = [])
    ∧ CsvResourceParser.parse_stream {} ["name,age", "John,30", "Jane,25"] = ⟨[], [], none⟩ := by
  constructor
  · intro cfg lines
    unfold CsvResourceParser.parse_stream
    by_cases h : lines = []
    · simp [h]
    · simp only [h, if_false]
      exact streamLoop_yields_nil _ _ _
  · decide

/-- Claim C7: the byte-to-text decode adapter. The adapter is a total
function of the concatenated bytes alone: its output equals the per-line
decode of the joined byte sequence, so a chunk boundary that splits a
multi-byte UTF-8 character changes nothing (the split pair decodes to the
correct character), invalid bytes become the replacement character instead
of aborting, and a residual unterminated segment is decoded and yielded
exactly once after the source ends. -/
theorem decode_adapter_resilience :
    (∀ chunks : List (List Nat),
      async_bytes_to_text_stream chunks = lineSplitDecode chunks.flatten)
    ∧ (∀ chunks : List (List Nat),
      async_bytes_to_text_stream chunks = async_bytes_to_text_stream [chunks.flatten])
    ∧ async_bytes_to_text_stream [[195], [169, 10]] = ["é"]
    ∧ async_bytes_to_text_stream [[65, 255, 66, 10]] = ["A�B"]
    ∧ async_bytes_to_text_stream [[97], [98]] = ["ab"] := by
  have main : ∀ chunks : List (List Nat),
      async_bytes_to_text_stream chunks = lineSplitDecode chunks.flatten := by
    intro chunks
    simpa [async_bytes_to_text_stream] using streamGo_eq chunks [] (by simp)
  refine ⟨main, fun chunks => ?_, by decide, by decide, by decide⟩
  rw [main, main]
  simp

/-- Claim C3, counterexample: with has_header = false, no headers and the
default on_error = "skip", parse does not raise at all; the raised
ValueError is swallowed by the outer handler and the call returns a count of
0, contradicting the claim that it raises regardless of the on_error
setting. -/
theorem csv_missing_headers_counterexample :
    CsvResourceParser.parse { has_header := false }
      (csvReaderRows ',' "name,age\nJohn,30") = .ok ([], 0) := by
  decide

/-- Claim C3, amended: when has_header is false and no explicit headers list
is provided, parse raises a ValueError only under on_error = "fail"; under
on_error = "skip" the error is swallowed by the surrounding handler and
parse returns normally with zero records written. -/
theorem csv_missing_headers_amended (cfg : CsvConfig) (rows : List (List String))
    (hh : cfg.has_header = false) (hn : cfg.headers = none) :
    (cfg.on_error = .fail → CsvResourceParser.parse cfg rows = .error .valueError)
    ∧ (cfg.on_error = .skip → CsvResourceParser.parse cfg rows = .ok ([], 0)) := by
  constructor <;> intro he <;> simp [CsvResourceParser.parse, hn, hh, he]

/-- Witness for csv_missing_headers_amended at a concrete configuration and
input, one instantiation per on_error mode. -/
theorem csv_missing_headers_witness :
    CsvResourceParser.parse { has_header := false, on_error := .fail }
      [["a", "b"]] = .error .valueError
    ∧ CsvResourceParser.parse { has_header := false, on_error := .skip }
      [["a", "b"]] = .ok ([], 0) := by
  exact ⟨(csv_missing_headers_amended { has_header := false, on_error := .fail }
      [["a", "b"]] rfl rfl).1 rfl,
    (csv_missing_headers_amended { has_header := false, on_error := .skip }
      [["a", "b"]] rfl rfl).2 rfl⟩

/-- Claim C1, counterexample: in the file-based parse path, a failing int
coercion on the non-null value "abc" under the default on_error = "skip"
does not retain the original string: the whole row is dropped (the coercion
ValueError escapes to the per-row handler, which skips the row), so the
parse of a header plus one data row emits no record at all. -/
theorem csv_coercion_failure_counterexample :
    CsvResourceParser.parse { coerce := [("age", "int")] }
      (csvReaderRows ',' "name,age\nJohn,abc") = .ok ([], 0) := by
  decide

/-- Claim C1, amended: under on_error = "skip" the two delimited-text row
pipelines treat a failing coercion differently. In parse (the file-based
path) the coercion error escapes to the per-row handler and the row is
dropped, not emitted. In the _process_row helper (the row transformation of
the streaming path, called with matching arguments) the failure is caught
inside and the emitted row retains the original (trimmed) string value. -/
theorem csv_coercion_failure_amended (v : String)
    (hint : pyInt? (pyStrip v) = none)
    (hnull : pyStrip v ∉ (["", "NULL", "null"] : List String)) :
    CsvResourceParser.parse { coerce := [("age", "int")] }
      [["name", "age"], ["John", v]] = .ok ([], 0)
    ∧ CsvResourceParser.process_row [] [("age", "int")] ["", "NULL", "null"] true "keep" none
        [("name", some "John"), ("age", some v)]
      = [("name", .str "John"), ("age", .str (pyStrip v))] := by
  have hne : pyStrip v ≠ "" := by
    intro h
    exact hnull (by simp [h])
  constructor
  · simp [CsvResourceParser.parse, CsvResourceParser.parseWithHeaders,
      CsvResourceParser.parseLoop, CsvResourceParser.rowRecord,
      CsvResourceParser.buildRecord, CsvResourceParser.coerce_value,
      effectiveNulls, pyTruthyList, lookupStr, pyLimitHit, dictInsert,
      hint, hnull, show pyStrip "John" = "John" from by decide]
  · have hnull2 : ¬pyStrip v = "" ∧ ¬pyStrip v = "NULL" ∧ ¬pyStrip v = "null" := by
      simpa [not_or] using hnull
    simp [CsvResourceParser.process_row, lookupStr, CsvResourceParser.coerce_value,
      dictInsert, hint, hnull2.1, hnull2.2.1, hnull2.2.2,
      show pyStrip "John" = "John" from by decide]

/-- Witness for csv_coercion_failure_amended at the concrete failing value
"abc": the parse path drops the row while the _process_row helper keeps the
original string. -/
theorem csv_coercion_failure_witness :
    pyInt? (pyStrip "abc") = none
    ∧ pyStrip "abc" ∉ (["", "NULL", "null"] : List String)
    ∧ CsvResourceParser.parse { coerce := [("age", "int")] }
        [["name", "age"], ["John", "abc"]] = .ok ([], 0)
    ∧ CsvResourceParser.process_row [] [("age", "int")] ["", "NULL", "null"] true "keep" none
        [("name", some "John"), ("age", some "abc")]
      = [("name", .str "John"), ("age", .str (pyStrip "abc"))] := by
  refine ⟨by decide, by decide, ?_, ?_⟩
  · exact (csv_coercion_failure_amended "abc" (by decide) (by decide)).1
  · exact (csv_coercion_failure_amended "abc" (by decide) (by decide)).2

/-- Claim C4, counterexample: a resource name matched by no pattern is
skipped by run_parser (NO_PARSER_FOUND warning, continue), not failed with a
ConfigurationError, contradicting the second half of the claim. The concrete
match function stands in for re.match on the pattern us_fl against the name
other.csv, which does not match. -/
theorem strategy_resolution_counterexample :
    resourceDispatch (fun p n => startsWithList p.data n.data)
      [("us_fl", (0 : Nat))] "other.csv" = .skipped
    ∧ (ResourceOutcome.skipped : ResourceOutcome Nat) ≠ .configError := by
  exact ⟨by decide, by decide⟩

/-- Claim C4, amended: for every match function, ordered mapping and
resource name, the strategy selected is the one of the first pattern in
declared/insertion order whose match succeeds; when no pattern matches, the
resource is skipped (run_parser logs a warning and continues with the next
resource) rather than failing with a ConfigurationError. -/
theorem strategy_resolution_amended (α : Type) (rmatch : String → String → Bool)
    (parsers : List (String × α)) (name : String) :
    (∀ (i : Nat) (hi : i < parsers.length),
      rmatch (parsers.get ⟨i, hi⟩).1 name = true →
      (∀ (j : Nat) (hj : j < i),
        rmatch (parsers.get ⟨j, Nat.lt_trans hj hi⟩).1 name = false) →
      resolveParser rmatch parsers name = some (parsers.get ⟨i, hi⟩))
    ∧ ((∀ p ∈ parsers, rmatch p.1 name = false) →
      resourceDispatch rmatch parsers name = .skipped) := by
  constructor
  · intro i hi hmatch hfirst
    induction parsers generalizing i with
    | nil => exact absurd hi (by simp)
    | cons p rest ih =>
      cases i with
      | zero =>
        simp only [List.get] at hmatch
        simp [resolveParser, hmatch]
      | succ i2 =>
        have h0 : rmatch p.1 name = false := hfirst 0 (Nat.succ_pos _)
        simp only [resolveParser, h0, Bool.false_eq_true, if_false]
        exact ih i2 (Nat.lt_of_succ_lt_succ hi) hmatch
          (fun j hj => hfirst (j + 1) (Nat.succ_lt_succ hj))
  · intro hnone
    induction parsers with
    | nil => rfl
    | cons p rest ih =>
      have h0 : rmatch p.1 name = false := hnone p (by simp)
      have hrest := ih (fun q hq => hnone q (by simp [hq]))
      simp only [resourceDispatch, resolveParser, h0, Bool.false_eq_true, if_false]
      simpa [resourceDispatch] using hrest

/-- Witness for strategy_resolution_amended: two overlapping prefix patterns
both match the name abc; the first declared one wins. And with no matching
pattern the dispatch outcome is skipped. -/
theorem strategy_resolution_witness :
    resolveParser (fun p n => startsWithList p.data n.data)
      [("a", (1 : Nat)), ("ab", 2)] "abc" = some ("a", 1)
    ∧ resourceDispatch (fun p n => startsWithList p.data n.data)
      [("a", (1 : Nat)), ("ab", 2)] "zzz" = .skipped := by
  constructor
  · exact (strategy_resolution_amended Nat (fun p n => startsWithList p.data n.data)
      [("a", 1), ("ab", 2)] "abc").1 0 (by decide) (by decide)
      (fun j hj => absurd hj (Nat.not_lt_zero j))
  · exact (strategy_resolution_amended Nat (fun p n => startsWithList p.data n.data)
      [("a", 1), ("ab", 2)] "zzz").2 (by decide)

/-- Claim C6, counterexample: a parse invocation whose configuration omits
field_specs does not fail with a ConfigurationError; it silently substitutes
the built-in default US_FL field-specification table and parses the line,
emitting one record whose COR_NUMBER comes from that default table. -/
theorem fixed_width_field_specs_counterexample :
    parseCount (FixedWidthResourceParser.parse {} ["L25000418660"]) = some 1
    ∧ dictGet ((parseRecords (FixedWidthResourceParser.parse {} ["L25000418660"])).getD 0 [])
      "COR_NUMBER" = some (.str "L25000418660") := by
  exact ⟨by decide, by decide⟩

/-- Claim C6, amended: the fixed-width strategy never fails over field_specs.
An omitted field_specs key falls back to the built-in default US_FL
field-specification table (the parse is identical to one configured with
that table explicitly), and an explicitly empty field_specs list is used
as-is, so every line parses to a record carrying only the metadata fields.
The validate method of the factory does not check field_specs at all. -/
theorem fixed_width_field_specs_amended (cfg : FwConfig) (fileLines : List String)
    (habs : cfg.field_specs = none) :
    FixedWidthResourceParser.parse cfg fileLines
      = FixedWidthResourceParser.parse
        { cfg with field_specs := some FixedWidthResourceParser.get_default_us_fl_field_specs }
        fileLines
    ∧ FixedWidthResourceParser.parse { field_specs := some [] } ["abc"]
      = .ok ([[("oc:source_row", .str "1")]], 1) := by
  constructor
  · simp [FixedWidthResourceParser.parse, habs]
  · decide

/-- Witness for fixed_width_field_specs_amended at a concrete configuration
and input: parsing with field_specs absent equals parsing with the default
table supplied explicitly. -/
theorem fixed_width_field_specs_witness :
    FixedWidthResourceParser.parse {} ["L25000418660"]
      = FixedWidthResourceParser.parse
        { field_specs := some FixedWidthResourceParser.get_default_us_fl_field_specs }
        ["L25000418660"]
    ∧ FixedWidthResourceParser.parse { field_specs := some [] } ["abc"]
      = .ok ([[("oc:source_row", .str "1")]], 1) := by
  exact fixed_width_field_specs_amended {} ["L25000418660"] rfl

/-- Claim C8: fixed-width extraction. For every line and every list of
1-based field specifications with distinct names, the parsed record maps
each spec name, in order, to the trimmed substring at 1-based offset start
of the given length, with an empty result (including an offset at or past
the end of the line) mapped to null, exactly as the spec-side description
fixedWidthSpecValue states. -/
theorem fixed_width_extraction_correct (line : String) (specs : List FieldSpec)
    (hstart : ∀ s ∈ specs, 1 ≤ s.start)
    (hnodup : (specs.map FieldSpec.name).Nodup) :
    FixedWidthResourceParser.parse_fixed_width_line line specs
      = specs.map (fun s => (s.name, fixedWidthSpecValue line s)) := by
  have hbody : ∀ (record : Record) (fs : FieldSpec),
      (let start0 := fs.start - 1
       let value :=
         if start0 < line.data.length then pyStrip ⟨(line.data.drop start0).take fs.length⟩
         else ""
       dictInsert record fs.name (if value = "" then Value.null else .str value))
      = dictInsert record fs.name (fixedWidthSpecValue line fs) := by
    intro record fs
    by_cases h : fs.start - 1 < line.data.length
    · simp only [fixedWidthSpecValue]
      rw [if_pos h]
    · have hdrop : line.data.drop (fs.start - 1) = [] :=
        List.drop_eq_nil_of_le (Nat.le_of_not_lt h)
      simp [fixedWidthSpecValue, h, hdrop, pyStrip, pyStripList]
  unfold FixedWidthResourceParser.parse_fixed_width_line
  simp only [hbody]
  simpa using foldl_dictInsert_map (fixedWidthSpecValue line) specs [] hnodup (by simp)

/-- Witness for fixed_width_extraction_correct: the concrete example of the
claim (field A at start 1 length 3 of abcdef extracts abc) and an
out-of-range offset yielding null. -/
theorem fixed_width_extraction_witness :
    (∀ s ∈ ([⟨"A", 1, 3⟩] : List FieldSpec), 1 ≤ s.start)
    ∧ (([⟨"A", 1, 3⟩] : List FieldSpec).map FieldSpec.name).Nodup
    ∧ FixedWidthResourceParser.parse_fixed_width_line "abcdef" [⟨"A", 1, 3⟩]
      = [("A", Value.str "abc")]
    ∧ FixedWidthResourceParser.parse_fixed_width_line "ab" [⟨"B", 7, 2⟩]
      = [("B", Value.null)] := by
  refine ⟨by decide, by decide, ?_, by decide⟩
  exact (fixed_width_extraction_correct "abcdef" [⟨"A", 1, 3⟩]
    (by decide) (by decide)).trans (by decide)

/-- Claim C9: OCID generation. For every record holding only string or null
values (as all fixed-width records do) and every ocid_generator
configuration, the generated identifier is exactly the spec-side ocidSpec:
ocid:v1:co: followed by the first 16 hex characters of the SHA-256 digest of
"<jurisdiction_code>|<company_number>", where company_number is the value of
the record for the configured company-number field, and exactly
ocid:v1:co:unknown when that value is empty, null, or missing. Moreover,
whenever ocid_generator is configured, every record emitted by the
fixed-width parse carries the oc:ocid field. -/
theorem ocid_generation_correct (r : Record) (g : OcidGen)
    (hv : ∀ p ∈ r, valueStrOrNull p.2 = true) :
    FixedWidthResourceParser.generate_ocid r g
      = ocidSpec (g.jurisdiction_code.getD "us_fl")
          (recordFieldStr r (g.company_number_field.getD "COR_NUMBER"))
    ∧ ∀ (cfg : FwConfig) (lines : List String) (g2 : OcidGen) (rec : Record),
        cfg.ocid_generator = some g2 →
        rec ∈ parseRecords (FixedWidthResourceParser.parse cfg lines) →
        (dictGet rec "oc:ocid").isSome = true := by
  constructor
  · unfold FixedWidthResourceParser.generate_ocid ocidSpec recordFieldStr
    cases hfind : dictGet r (g.company_number_field.getD "COR_NUMBER") with
    | none => simp [hfind, pyTruthyValue, pyStrOfValue]
    | some v =>
      have hval : valueStrOrNull v = true := by
        unfold dictGet at hfind
        rcases hf : List.find? (fun p => p.1 = g.company_number_field.getD "COR_NUMBER") r
          with _ | p
        · rw [hf] at hfind
          simp at hfind
        · rw [hf] at hfind
          simp at hfind
          have hm := hv p (List.mem_of_find?_eq_some hf)
          rwa [hfind] at hm
      cases v with
      | str s =>
        by_cases hs : s = ""
        · simp [hfind, hs, pyTruthyValue, pyStrOfValue]
        · simp [hfind, hs, pyTruthyValue, pyStrOfValue]
      | null => simp [hfind, pyTruthyValue, pyStrOfValue]
      | int n => simp [valueStrOrNull] at hval
      | num q => simp [valueStrOrNull] at hval
      | bool b => simp [valueStrOrNull] at hval
  · intro cfg lines g2 rec hog hmem
    unfold FixedWidthResourceParser.parse at hmem
    simp only [parseRecords] at hmem
    obtain ⟨m, l, rfl⟩ := mem_parseLines _ _ _ _ _ _ hmem
    unfold FixedWidthResourceParser.lineRecord
    rw [hog]
    simp [dictGet_dictInsert_self]

set_option maxRecDepth 10000 in
/-- Witness for ocid_generation_correct at a concrete US_FL record: the
identifier is the literal first-16-hex-characters SHA-256 value, and a null
company number yields the unknown identifier. -/
theorem ocid_generation_witness :
    (∀ p ∈ ([("COR_NUMBER", Value.str "L25000418660"), ("oc:source_row", Value.str "1")] :
        Record), valueStrOrNull p.2 = true)
    ∧ FixedWidthResourceParser.generate_ocid
        [("COR_NUMBER", .str "L25000418660"), ("oc:source_row", .str "1")] {}
      = "ocid:v1:co:dbec6ccd84352449"
    ∧ FixedWidthResourceParser.generate_ocid [("COR_NUMBER", Value.null)] {}
      = "ocid:v1:co:unknown" := by
  refine ⟨by decide, ?_, ?_⟩
  · exact ((ocid_generation_correct
      [("COR_NUMBER", .str "L25000418660"), ("oc:source_row", .str "1")] {}
      (by decide)).1).trans (by decide)
  · exact ((ocid_generation_correct [("COR_NUMBER", Value.null)] {}
      (by decide)).1).trans (by decide)

/-- Claim C10, counterexample: the limit check does not only take effect for
positive limit_rows values. With limit_rows = -1 (nonzero, not positive) the
delimited parse breaks out before the first data row and emits nothing,
while the same input with no limit emits its one data row. -/
theorem limit_rows_zero_counterexample :
    CsvResourceParser.parse { limit_rows := some (-1) }
      (csvReaderRows ',' "name,age\nJohn,30") = .ok ([], 0)
    ∧ CsvResourceParser.parse {} (csvReaderRows ',' "name,age\nJohn,30")
      = .ok ([[("name", .str "John"), ("age", .str "30"), ("oc:source_row", .str "2")]], 1) := by
  exact ⟨by decide, by decide⟩

/-- Claim C10, amended: configuring limit_rows = 0 disables the row limit
entirely in both strategies and in all three code paths (delimited parse,
delimited parse_stream, fixed-width parse): the result is identical to the
no-limit configuration, so every data row is processed as without a limit.
However, the check is skipped only when limit_rows is zero or absent, not
for every non-positive value: a negative limit_rows is truthy and takes
effect, cutting the delimited parse to zero emitted records. -/
theorem limit_rows_zero_amended (cfg : CsvConfig) (fcfg : FwConfig)
    (rows : List (List String)) (lines fileLines : List String) (l : Int)
    (hneg : l < 0) (hh : cfg.has_header = true) (hn : cfg.headers = none) :
    CsvResourceParser.parse { cfg with limit_rows := some 0 } rows
      = CsvResourceParser.parse { cfg with limit_rows := none } rows
    ∧ CsvResourceParser.parse_stream { cfg with limit_rows := some 0 } lines
      = CsvResourceParser.parse_stream { cfg with limit_rows := none } lines
    ∧ FixedWidthResourceParser.parse { fcfg with limit_rows := some 0 } fileLines
      = FixedWidthResourceParser.parse { fcfg with limit_rows := none } fileLines
    ∧ CsvResourceParser.parse { cfg with limit_rows := some l } rows = .ok ([], 0) := by
  refine ⟨?_, ?_, ?_, ?_⟩
  · simp only [CsvResourceParser.parse, CsvResourceParser.parseWithHeaders]
    cases hhd : cfg.headers with
    | some hs => simp [hhd, parseLoop_limit_zero]
    | none =>
      cases rows with
      | nil => simp [hhd, hh]
      | cons h rest => simp [hhd, hh, parseLoop_limit_zero]
  · simp only [CsvResourceParser.parse_stream]
    by_cases hl : lines = []
    · simp [hl]
    · simp [hl, streamLoop_limit_zero]
  · simp [FixedWidthResourceParser.parse, pyTruthyOptInt]
  · cases rows with
    | nil => simp [CsvResourceParser.parse, hn, hh]
    | cons h rest =>
      simp [CsvResourceParser.parse, CsvResourceParser.parseWithHeaders, hn, hh,
        parseLoop_neg_limit _ _ l hneg]

/-- Witness for limit_rows_zero_amended at concrete configurations and
inputs: limit 0 equals no limit on both strategies (with all data rows
emitted), and a negative limit cuts the output to zero records. -/
theorem limit_rows_zero_witness :
    CsvResourceParser.parse { limit_rows := some 0 }
        (csvReaderRows ',' "name,age\nJohn,30\nJane,25")
      = CsvResourceParser.parse {} (csvReaderRows ',' "name,age\nJohn,30\nJane,25")
    ∧ parseCount (CsvResourceParser.parse { limit_rows := some 0 }
        (csvReaderRows ',' "name,age\nJohn,30\nJane,25")) = some 2
    ∧ FixedWidthResourceParser.parse { limit_rows := some 0 } ["ab", "cd"]
      = FixedWidthResourceParser.parse {} ["ab", "cd"]
    ∧ CsvResourceParser.parse { limit_rows := some (-2) }
        (csvReaderRows ',' "name,age\nJohn,30") = .ok ([], 0) := by
  refine ⟨?_, by decide, ?_, ?_⟩
  · exact (limit_rows_zero_amended {} {} (csvReaderRows ',' "name,age\nJohn,30\nJane,25")
      [] [] (-2) (by decide) rfl rfl).1
  · exact (limit_rows_zero_amended {} {} [] [] ["ab", "cd"] (-2)
      (by decide) rfl rfl).2.2.1
  · exact (limit_rows_zero_amended {} {} (csvReaderRows ',' "name,age\nJohn,30")
      [] [] (-2) (by decide) rfl rfl).2.2.2

end DataParser
